import Mathlib

/-!
Shallow embedding of the search layer of the go-ldap v3 client
(`v3/search.go`): entry construction and attribute access, the buffered
`Search` loop, the paged-search helper `SearchWithPaging`, and the
streaming `SearchWithChannel`.

Modelling conventions:
* Byte strings (`[]byte` values, paging cookies) are modelled as `String`
  (a byte sequence); an empty cookie is the empty string.
* The inbound PDU stream of a search (the packets `readPacket` /
  `msgCtx.responses` yields for the message, already BER-decoded) is the
  input list of the model; a read error at some position is an explicit
  event.  Exhaustion of the list models the connection dying with no
  further packet, which surfaces as a network error.
* Collaborators that live outside `v3/search.go` (`FindControl`,
  `NewControlPaging`, `GetLDAPError`, `DecodeControl`, `unpackAttributes`)
  are modelled from the spec; each carries a doc comment saying so.
-/

namespace Ldap

/-- OID of the paging control, `ControlTypePaging` (RFC 2696,
1.2.840.113556.1.4.319). -/
def ControlTypePaging : String := "1.2.840.113556.1.4.319"

/-- LDAP controls as far as the search layer inspects them.  `paging`
models `*ControlPaging` (a page size and a cookie); `other oid` models any
other `Control` implementation, identified by the OID its
`GetControlType` returns.  In particular `other ControlTypePaging` models
a control that carries the paging OID but is not a `*ControlPaging`
value (the failed type-assertion case of `SearchWithPaging`). -/
inductive Control where
  | paging (PagingSize : Nat) (Cookie : String)
  | other (oid : String)
deriving DecidableEq, Repr

/-- GetControlType of a control: the paging OID for `paging`, the stored
OID for `other`. -/
def Control.getControlType : Control → String
  | .paging _ _ => ControlTypePaging
  | .other oid => oid

/-- Modelled from the spec: `FindControl` lives outside `src/`; the
control registry is "a plug-in table keyed by OID", and `FindControl`
returns the control in the list whose type OID matches, taking the first
match. -/
def FindControl (controls : List Control) (controlType : String) : Option Control :=
  controls.find? (fun c => c.getControlType = controlType)

/-- Modelled from the spec: `NewControlPaging` lives outside `src/`; "the
application allocates a paging control with the desired size and empty
cookie". -/
def NewControlPaging (pagingSize : Nat) : Control :=
  Control.paging pagingSize ""

/-- EntryAttribute holds a single attribute (`Name`, `Values`,
`ByteValues`); byte values are modelled as the value strings
themselves. -/
structure EntryAttribute where
  Name : String
  Values : List String
  ByteValues : List String
deriving DecidableEq, Repr

/-- Entry represents a single search result entry. -/
structure Entry where
  DN : String
  Attributes : List EntryAttribute
deriving DecidableEq, Repr

/-- NewEntryAttribute returns a new EntryAttribute with the desired
key-value pair; `ByteValues` is the byte form of each value (modelled as
the value itself). -/
def NewEntryAttribute (name : String) (values : List String) : EntryAttribute :=
  ⟨name, values, values⟩

/-- NewEntry returns an Entry with the given DN and attribute map.  The Go
map is modelled as its list of keys in iteration order (`iterKeys`)
together with the lookup function `attributes`; `NewEntry` collects the
keys, sorts them (`sort.Strings`), and encodes the attributes in sorted
key order. -/
def NewEntry (dn : String) (iterKeys : List String)
    (attributes : String → List String) : Entry :=
  let attributeNames := List.insertionSort (· ≤ ·) iterKeys
  ⟨dn, attributeNames.map (fun n => NewEntryAttribute n (attributes n))⟩

/-- Loop body of `Entry.GetAttributeValues`: return the `Values` of the
first attribute whose `Name` equals the argument, else the empty list. -/
def getAttributeValuesAux (attributeName : String) : List EntryAttribute → List String
  | [] => []
  | attr :: rest =>
    if attr.Name = attributeName then attr.Values
    else getAttributeValuesAux attributeName rest

/-- GetAttributeValues returns the values for the named attribute, or an
empty list. -/
def Entry.GetAttributeValues (e : Entry) (attributeName : String) : List String :=
  getAttributeValuesAux attributeName e.Attributes

/-- Modelled from the Go standard library `strings.EqualFold`, restricted
to ASCII simple case folding: the two strings are equal after mapping
upper-case ASCII letters to lower case. -/
def asciiLower (c : Char) : Char :=
  if 'A' ≤ c ∧ c ≤ 'Z' then Char.ofNat (c.toNat + 32) else c

/-- Boolean case-insensitive string equality used by the EqualFold
accessors. -/
def stringsEqualFold (s t : String) : Bool :=
  s.data.map asciiLower = t.data.map asciiLower

/-- Loop body of `Entry.GetEqualFoldAttributeValues`: first attribute
whose name matches under `stringsEqualFold` (the source compares
`strings.EqualFold(attribute, attr.Name)`). -/
def getEqualFoldAttributeValuesAux (attributeName : String) :
    List EntryAttribute → List String
  | [] => []
  | attr :: rest =>
    if stringsEqualFold attributeName attr.Name then attr.Values
    else getEqualFoldAttributeValuesAux attributeName rest

/-- GetEqualFoldAttributeValues returns the values for the named
attribute, or an empty list; matching is done with `strings.EqualFold`. -/
def Entry.GetEqualFoldAttributeValues (e : Entry) (attributeName : String) : List String :=
  getEqualFoldAttributeValuesAux attributeName e.Attributes

/-- GetAttributeValue returns the first value for the named attribute,
or the empty string. -/
def Entry.GetAttributeValue (e : Entry) (attributeName : String) : String :=
  match e.GetAttributeValues attributeName with
  | [] => ""
  | v :: _ => v

/-- GetEqualFoldAttributeValue returns the first value for the named
attribute, or the empty string; comparison is done with
`strings.EqualFold`. -/
def Entry.GetEqualFoldAttributeValue (e : Entry) (attributeName : String) : String :=
  match e.GetEqualFoldAttributeValues attributeName with
  | [] => ""
  | v :: _ => v

/-! The inbound side of a search: PDUs, errors, the buffered `Search`. -/

/-- Errors the search layer can return, tagged by their kind. -/
inductive LdapErr where
  | network (msg : String)
  | usage (msg : String)
  | resultError (code : Nat)
  | controlDecode (msg : String)
  | readError (msg : String)
  | filterCompile (msg : String)
  | notPagingControl
  | pagingSizeMismatch (requestSize callSize : Nat)
deriving DecidableEq, Repr

/-- One child packet of the Controls element of a SearchResultDone, as far
as `DecodeControl` is concerned: either it decodes to a control or it is
malformed with some message. -/
inductive CtrlPacket where
  | good (c : Control)
  | bad (msg : String)
deriving DecidableEq, Repr

/-- Modelled from the spec: `DecodeControl` lives outside `src/`; the
registry decodes a known OID to its control, unknown OIDs to a generic
control, and fails on a malformed payload.  The packet model already
carries that verdict. -/
def DecodeControl : CtrlPacket → Except String Control
  | .good c => .ok c
  | .bad m => .error m

/-- One attribute child of a SearchResultEntry PDU: a name and the list
of value strings. -/
structure RawAttribute where
  name : String
  vals : List String
deriving DecidableEq, Repr

/-- Inbound PDUs of a search, classified by the [APPLICATION] tag of
`packet.Children[1]`.  A `searchReference` (tag 19) carries one or more
URLs on the wire, modelled as a first URL plus the remaining ones.  A
`searchDone` (tag 5) carries the LDAPResult code and, when the envelope
has three children, the list of control child packets.  `otherApp`
models any other tag, which the loops ignore. -/
inductive PDU where
  | searchEntry (dn : String) (attrs : List RawAttribute)
  | searchDone (resultCode : Nat) (controls : Option (List CtrlPacket))
  | searchReference (url : String) (moreUrls : List String)
  | otherApp (tag : Nat)
deriving DecidableEq, Repr

/-- One step of the inbound stream: either a decoded packet or a read
error (`readPacket` / `ReadPacket` failing). -/
inductive PDUEvent where
  | packet (p : PDU)
  | readErr (msg : String)
deriving DecidableEq, Repr

/-- Modelled from the spec: `GetLDAPError` lives outside `src/`;
"resultCode 0 is success; 10 is referral (non-error); 14 is
saslBindInProgress (non-error); every other non-zero code is an
error". -/
def GetLDAPError (resultCode : Nat) : Option LdapErr :=
  if resultCode = 0 ∨ resultCode = 10 ∨ resultCode = 14 then none
  else some (.resultError resultCode)

/-- Modelled from the spec: `unpackAttributes` lives outside `src/`; it
decodes each attribute child into an `EntryAttribute` with the name, the
string values and the raw byte values (bytes modelled as the strings). -/
def unpackAttributes (children : List RawAttribute) : List EntryAttribute :=
  children.map (fun a => ⟨a.name, a.vals, a.vals⟩)

/-- SearchResult holds the server's response to a search request. -/
structure SearchResult where
  Entries : List Entry
  Referrals : List String
  Controls : List Control
deriving DecidableEq, Repr

/-- Empty search result, as allocated at the top of `Search`. -/
def emptySearchResult : SearchResult := ⟨[], [], []⟩

/-- Control-decoding loop of `Search`'s SearchResultDone branch: append
each decoded control to the result; on the first child that fails to
decode, return the result built so far together with the error. -/
def appendControlChildren : List CtrlPacket → SearchResult → SearchResult × Option LdapErr
  | [], acc => (acc, none)
  | .good c :: rest, acc =>
    appendControlChildren rest ⟨acc.Entries, acc.Referrals, acc.Controls ++ [c]⟩
  | .bad m :: _, acc => (acc, some (.controlDecode m))

/-- Receive loop of `Search`: read packets until SearchResultDone, a read
error, or stream exhaustion (the connection yielding nothing more, a
network error), accumulating entries (tag 4), referrals (tag 19, first
URL of the PDU) and, on a clean Done, the decoded controls.  Every exit
returns the result accumulated so far. -/
def searchLoop (acc : SearchResult) : List PDUEvent → SearchResult × Option LdapErr
  | [] => (acc, some (.network "ldap: connection closed"))
  | .readErr m :: _ => (acc, some (.readError m))
  | .packet p :: rest =>
    match p with
    | .searchEntry dn attrs =>
      searchLoop ⟨acc.Entries ++ [⟨dn, unpackAttributes attrs⟩], acc.Referrals, acc.Controls⟩ rest
    | .searchDone code ctrls =>
      match GetLDAPError code with
      | some e => (acc, some e)
      | none =>
        match ctrls with
        | none => (acc, none)
        | some cs => appendControlChildren cs acc
    | .searchReference url _moreUrls =>
      searchLoop ⟨acc.Entries, acc.Referrals ++ [url], acc.Controls⟩ rest
    | .otherApp _ => searchLoop acc rest

/-- Search performs the given search request: the buffered search over an
inbound event stream. -/
def Search (events : List PDUEvent) : SearchResult × Option LdapErr :=
  searchLoop emptySearchResult events

/-! Paged search: `SearchWithPaging`. -/

/-- Return value of one inner `l.Search` call as `SearchWithPaging`
observes it: an optional result and an optional error (Go returns the
pair `(*SearchResult, error)`, either of which may be nil). -/
structure PageResp where
  result : Option SearchResult
  err : Option LdapErr
deriving DecidableEq, Repr

/-- Observable outcome of a `SearchWithPaging` run: the aggregated
result, the returned error, the Controls slice of the request at each
inner `Search` call in order, whether the size-0 abandon branch ran, and
whether the run hit the `pagingResult.(*ControlPaging)` type assertion
on a non-paging control (a Go panic). -/
structure PagingOutcome where
  result : SearchResult
  error : Option LdapErr
  issuedRequests : List (List Control)
  abandonIssued : Bool
  panicked : Bool
deriving DecidableEq, Repr

/-- Mutation of the control `pagingControl` points at: `pagingControl`
aliases the first control of the request whose type OID is the paging
OID, so `SetCookie` / `PagingSize = 0` rewrite that element in place. -/
def updateFirstPagingControl (f : Control → Control) : List Control → List Control
  | [] => []
  | c :: rest =>
    if c.getControlType = ControlTypePaging then f c :: rest
    else c :: updateFirstPagingControl f rest

/-- SetCookie on a paging control. -/
def setPagingCookie (cookie : String) : Control → Control
  | .paging s _ => .paging s cookie
  | c => c

/-- Assignment `pagingControl.PagingSize = 0` before the abandon page. -/
def setPagingSizeZero : Control → Control
  | .paging _ ck => .paging 0 ck
  | c => c

/-- Code after `SearchWithPaging`'s loop, reached only through `break`:
if `pagingControl` is still non-nil, set its size to 0 and issue one
more search (the abandon page), returning its error if any; otherwise
return the accumulated result.  (Both `break` sites of the source set
`pagingControl = nil` first, so callers always pass `false`.) -/
def abandonPhase (pagingControlLive : Bool) (controls : List Control)
    (acc : SearchResult) (issued : List (List Control))
    (remainingPages : List PageResp) : PagingOutcome :=
  if pagingControlLive then
    let controls := updateFirstPagingControl setPagingSizeZero controls
    let issued := issued ++ [controls]
    match remainingPages with
    | [] => ⟨acc, some (.network "ldap: connection closed"), issued, true, false⟩
    | page :: _ =>
      match page.err with
      | some e => ⟨acc, some e, issued, true, false⟩
      | none => ⟨acc, none, issued, true, false⟩
  else ⟨acc, none, issued, false, false⟩

/-- Paging loop of `SearchWithPaging`.  Each iteration issues one inner
`Search` (recording the request's Controls and consuming one
`PageResp`); on an error it returns the aggregate so far with that
error; on a nil result it returns a network error; otherwise it appends
the page's entries, referrals and controls, looks for the paging control
in the response, and either stops (control missing or cookie empty, both
after clearing `pagingControl`) or copies the cookie into the request's
control and continues. -/
def pagingLoop (controls : List Control) (acc : SearchResult)
    (issued : List (List Control)) : List PageResp → PagingOutcome
  | [] => ⟨acc, some (.network "ldap: connection closed"), issued ++ [controls], false, false⟩
  | page :: rest =>
    let issued := issued ++ [controls]
    match page.err with
    | some e => ⟨acc, some e, issued, false, false⟩
    | none =>
      match page.result with
      | none => ⟨acc, some (.network "ldap: packet not received"), issued, false, false⟩
      | some r =>
        let acc : SearchResult :=
          ⟨acc.Entries ++ r.Entries, acc.Referrals ++ r.Referrals, acc.Controls ++ r.Controls⟩
        match FindControl r.Controls ControlTypePaging with
        | none => abandonPhase false controls acc issued rest
        | some c =>
          match c with
          | .other _ => ⟨acc, none, issued, false, true⟩
          | .paging _ cookie =>
            if cookie = "" then abandonPhase false controls acc issued rest
            else pagingLoop (updateFirstPagingControl (setPagingCookie cookie) controls) acc issued rest

/-- SearchWithPaging: validate or install the paging control on the
request, then run the paging loop over the inner search responses.
`controls` is the request's Controls slice, `pagingSize` the requested
page size, `pages` the successive inner `Search` outcomes. -/
def SearchWithPaging (controls : List Control) (pagingSize : Nat)
    (pages : List PageResp) : PagingOutcome :=
  match FindControl controls ControlTypePaging with
  | none => pagingLoop (controls ++ [NewControlPaging pagingSize]) emptySearchResult [] pages
  | some c =>
    match c with
    | .other _ => ⟨emptySearchResult, some .notPagingControl, [], false, false⟩
    | .paging s _ =>
      if s ≠ pagingSize then
        ⟨emptySearchResult, some (.pagingSizeMismatch s pagingSize), [], false, false⟩
      else pagingLoop controls emptySearchResult [] pages

/-! Streaming search: `SearchWithChannel`. -/

/-- Observable outcome of a `SearchWithChannel` call: the records sent on
the channel in order, whether the channel was closed by the time the
call returned, the returned error, how many MessageIDs were allocated
(`nextMessageID` calls) and how many requests were written to the
server. -/
structure ChannelOutcome where
  sent : List SearchResult
  closed : Bool
  error : Option LdapErr
  messageIDsAllocated : Nat
  requestsSent : Nat
deriving DecidableEq, Repr

/-- Control-decoding loop of `SearchWithChannel`'s SearchResultDone
branch: decode every child into a local result; on the first failure
return the error (the local result is discarded, nothing is sent). -/
def decodeControlList : List CtrlPacket → List Control → List Control × Option String
  | [], acc => (acc, none)
  | .good c :: rest, acc => decodeControlList rest (acc ++ [c])
  | .bad m :: _, acc => (acc, some m)

/-- Receive loop of `SearchWithChannel`: for each inbound packet send an
entry record (tag 4) or a one-URL referral record (tag 19) on the
channel; on a clean SearchResultDone send the controls record when the
envelope carries controls and stop; on an LDAP error, a decode failure,
a read error or a closed response channel stop with that error.  Returns
the records sent in order. -/
def channelLoop (sent : List SearchResult) : List PDUEvent → List SearchResult × Option LdapErr
  | [] => (sent, some (.network "ldap: response channel closed"))
  | .readErr m :: _ => (sent, some (.readError m))
  | .packet p :: rest =>
    match p with
    | .searchEntry dn attrs =>
      channelLoop (sent ++ [⟨[⟨dn, unpackAttributes attrs⟩], [], []⟩]) rest
    | .searchReference url _moreUrls =>
      channelLoop (sent ++ [⟨[], [url], []⟩]) rest
    | .searchDone code ctrls =>
      match GetLDAPError code with
      | some e => (sent, some e)
      | none =>
        match ctrls with
        | none => (sent, none)
        | some cs =>
          match decodeControlList cs [] with
          | (_, some m) => (sent, some (.controlDecode m))
          | (decoded, none) => (sent ++ [⟨[], [], decoded⟩], none)
    | .otherApp _ => channelLoop sent rest

/-- SearchWithChannel: with a nil channel return a Usage error before
allocating a MessageID or sending anything; otherwise the channel is
closed on every subsequent return path (the `defer close(ch)`).  The
request packet is then built (allocating one MessageID); a filter
compile failure aborts before sending; a send failure aborts after
sending nothing usable; otherwise the receive loop runs over the inbound
events.  `chPresent` is whether the caller passed a non-nil channel,
`compileOk` whether `CompileFilter` succeeds on the request's filter,
`sendOk` whether `sendMessage` succeeds. -/
def SearchWithChannel (chPresent : Bool) (compileOk : Bool) (sendOk : Bool)
    (events : List PDUEvent) : ChannelOutcome :=
  if !chPresent then
    ⟨[], false, some (.usage "ldap: SearchWithChannel got nil channel"), 0, 0⟩
  else if !compileOk then
    ⟨[], true, some (.filterCompile "ldap: error compiling filter"), 1, 0⟩
  else if !sendOk then
    ⟨[], true, some (.network "ldap: could not send message"), 1, 0⟩
  else
    let (sent, e) := channelLoop [] events
    ⟨sent, true, e, 1, 1⟩

/-! Observables used to state properties of the loops. -/

/-- Entry decoded from a PDU, when the PDU is a SearchResultEntry. -/
def entryOfPDU : PDU → Option Entry
  | .searchEntry dn attrs => some ⟨dn, unpackAttributes attrs⟩
  | _ => none

/-- First referral URL of a PDU, when the PDU is a
SearchResultReference. -/
def firstUrlOfPDU : PDU → Option String
  | .searchReference url _ => some url
  | _ => none

/-- True on every PDU other than SearchResultDone: those the search
loops pass over without stopping. -/
def nonTerminalPDU : PDU → Bool
  | .searchDone _ _ => false
  | _ => true

/-- Record `SearchWithChannel` sends for a PDU: an entry record for a
SearchResultEntry, a one-URL referral record for a
SearchResultReference, nothing for any other tag. -/
def recordOfPDU : PDU → Option SearchResult
  | .searchEntry dn attrs => some ⟨[⟨dn, unpackAttributes attrs⟩], [], []⟩
  | .searchReference url _ => some ⟨[], [url], []⟩
  | _ => none

/-- Whether a page response makes `SearchWithPaging` issue the next
page: the inner search succeeded with a non-nil result whose paging
control is a real paging control with a nonempty cookie. -/
def pageContinues (p : PageResp) : Bool :=
  match p.err with
  | some _ => false
  | none =>
    match p.result with
    | none => false
    | some r =>
      match FindControl r.Controls ControlTypePaging with
      | some (.paging _ cookie) => cookie != ""
      | _ => false

/-! Theorems. -/

/-- Helper: `getAttributeValuesAux` returns the values of the first
attribute whose name equals the argument exactly. -/
theorem getAttributeValuesAux_eq_find (a : String) (l : List EntryAttribute) :
    getAttributeValuesAux a l
      = (match l.find? (fun attr => attr.Name == a) with
         | some attr => attr.Values
         | none => []) := by
  induction l with
  | nil => rfl
  | cons attr rest ih =>
    by_cases hn : attr.Name = a
    · rw [List.find?_cons_of_pos _ (by simp [hn])]
      simp [getAttributeValuesAux, hn]
    · rw [List.find?_cons_of_neg _ (by simp [hn])]
      simp only [getAttributeValuesAux, if_neg hn]
      exact ih

/-- Helper: `getEqualFoldAttributeValuesAux` returns the values of the
first attribute whose name matches under `stringsEqualFold`. -/
theorem getEqualFoldAttributeValuesAux_eq_find (a : String) (l : List EntryAttribute) :
    getEqualFoldAttributeValuesAux a l
      = (match l.find? (fun attr => stringsEqualFold a attr.Name) with
         | some attr => attr.Values
         | none => []) := by
  induction l with
  | nil => rfl
  | cons attr rest ih =>
    cases hf : stringsEqualFold a attr.Name
    · rw [List.find?_cons_of_neg _ (by simp [hf])]
      simp only [getEqualFoldAttributeValuesAux, hf, Bool.false_eq_true, if_false]
      exact ih
    · rw [List.find?_cons_of_pos _ (by simp [hf])]
      simp [getEqualFoldAttributeValuesAux, hf]

/-- C10: `GetAttributeValues` returns the `Values` of the first
attribute whose `Name` equals the argument exactly (case-sensitively)
and the empty list when none matches; `GetAttributeValue` returns the
first such value or the empty string; case-insensitive matching is done
only by the EqualFold variants, which select the first attribute whose
name matches under `strings.EqualFold`. -/
theorem getAttribute_exact_match (e : Entry) (a : String) :
    (e.GetAttributeValues a
      = (match e.Attributes.find? (fun attr => attr.Name == a) with
         | some attr => attr.Values
         | none => []))
    ∧ (e.GetAttributeValue a = (e.GetAttributeValues a).headD "")
    ∧ (e.GetEqualFoldAttributeValues a
      = (match e.Attributes.find? (fun attr => stringsEqualFold a attr.Name) with
         | some attr => attr.Values
         | none => []))
    ∧ (e.GetEqualFoldAttributeValue a = (e.GetEqualFoldAttributeValues a).headD "") := by
  refine ⟨getAttributeValuesAux_eq_find a e.Attributes, ?_,
          getEqualFoldAttributeValuesAux_eq_find a e.Attributes, ?_⟩
  · cases h : e.GetAttributeValues a <;>
      simp [Entry.GetAttributeValue, h]
  · cases h : e.GetEqualFoldAttributeValues a <;>
      simp [Entry.GetEqualFoldAttributeValue, h]

/-- C8: `NewEntry` emits attributes sorted by attribute name, so two
calls on equal input maps (whatever the iteration order of the keys)
produce identical entries. -/
theorem newEntry_sorted_deterministic (dn : String) (ks1 ks2 : List String)
    (attributes : String → List String) (h : List.Perm ks1 ks2) :
    NewEntry dn ks1 attributes = NewEntry dn ks2 attributes
    ∧ List.Sorted (· ≤ ·)
        ((NewEntry dn ks1 attributes).Attributes.map EntryAttribute.Name) := by
  have hsorteq : List.insertionSort (· ≤ ·) ks1 = List.insertionSort (· ≤ ·) ks2 :=
    List.eq_of_perm_of_sorted
      (((List.perm_insertionSort _ ks1).trans h).trans
        (List.perm_insertionSort _ ks2).symm)
      (List.sorted_insertionSort _ ks1) (List.sorted_insertionSort _ ks2)
  constructor
  · unfold NewEntry
    rw [hsorteq]
  · unfold NewEntry
    simp only [List.map_map]
    have hmap : (EntryAttribute.Name ∘ fun n => NewEntryAttribute n (attributes n)) = id := by
      funext n
      rfl
    rw [hmap, List.map_id]
    exact List.sorted_insertionSort _ ks1

/-- Witness for C8 at a concrete input: the two iteration orders of the
map with keys "cn" and "sn" give the same entry, with sorted attribute
names. -/
theorem newEntry_sorted_deterministic_witness :
    List.Perm ["sn", "cn"] ["cn", "sn"]
    ∧ (NewEntry "cn=a,dc=x" ["sn", "cn"] (fun n => [n])
         = NewEntry "cn=a,dc=x" ["cn", "sn"] (fun n => [n])
       ∧ List.Sorted (· ≤ ·)
           ((NewEntry "cn=a,dc=x" ["sn", "cn"] (fun n => [n])).Attributes.map
             EntryAttribute.Name)) :=
  ⟨by decide, newEntry_sorted_deterministic "cn=a,dc=x" ["sn", "cn"] ["cn", "sn"]
      (fun n => [n]) (by decide)⟩

/-- C9: `SearchWithChannel` with a nil channel returns a Usage error
having allocated no MessageID and sent nothing (and without touching the
channel). -/
theorem searchWithChannel_nil_channel (compileOk sendOk : Bool) (events : List PDUEvent) :
    SearchWithChannel false compileOk sendOk events
      = ⟨[], false, some (.usage "ldap: SearchWithChannel got nil channel"), 0, 0⟩ := rfl

/-- Helper: the paging loop never reaches the abandon branch with a live
paging control — both `break` sites clear `pagingControl` first and the
error paths return directly. -/
theorem pagingLoop_never_abandons (pages : List PageResp) :
    ∀ controls acc issued, (pagingLoop controls acc issued pages).abandonIssued = false := by
  induction pages with
  | nil =>
    intro controls acc issued
    rfl
  | cons page rest ih =>
    intro controls acc issued
    cases herr : page.err with
    | some e => simp [pagingLoop, herr]
    | none =>
      cases hres : page.result with
      | none => simp [pagingLoop, herr, hres]
      | some r =>
        cases hfind : FindControl r.Controls ControlTypePaging with
        | none => simp [pagingLoop, herr, hres, hfind, abandonPhase]
        | some c =>
          cases c with
          | other oid => simp [pagingLoop, herr, hres, hfind]
          | paging s cookie =>
            by_cases hck : cookie = ""
            · simp [pagingLoop, herr, hres, hfind, hck, abandonPhase]
            · simp [pagingLoop, herr, hres, hfind, hck, ih]

/-- C1 (code bug): `SearchWithPaging` never issues the final size-0
abandon search, on any input — in particular not when a page's inner
`Search` fails, where it returns after the one failed request.  The
source's abandon branch is unreachable: both `break` sites set
`pagingControl = nil` first and every error path returns from inside the
loop. -/
theorem searchWithPaging_never_abandons :
    (∀ (controls : List Control) (pagingSize : Nat) (pages : List PageResp),
       (SearchWithPaging controls pagingSize pages).abandonIssued = false)
    ∧ (SearchWithPaging [] 2 [⟨some emptySearchResult, some (.resultError 1)⟩]).issuedRequests.length = 1 := by
  constructor
  · intro controls pagingSize pages
    unfold SearchWithPaging
    cases hfind : FindControl controls ControlTypePaging with
    | none => exact pagingLoop_never_abandons pages _ _ _
    | some c =>
      cases c with
      | other oid => rfl
      | paging s ck =>
        by_cases hsz : s ≠ pagingSize
        · simp [hsz]
        · simp [hsz, pagingLoop_never_abandons pages]
  · rfl

/-- Helper: running the buffered receive loop over a prefix of
non-terminal PDUs accumulates exactly their entries and first referral
URLs, in arrival order, before continuing with the rest of the
stream. -/
theorem searchLoop_accumulates (pre : List PDU) :
    ∀ (acc : SearchResult) (rest : List PDUEvent), pre.all nonTerminalPDU →
      searchLoop acc (pre.map PDUEvent.packet ++ rest)
        = searchLoop ⟨acc.Entries ++ pre.filterMap entryOfPDU,
                      acc.Referrals ++ pre.filterMap firstUrlOfPDU, acc.Controls⟩ rest := by
  induction pre with
  | nil =>
    intro acc rest _
    simp
  | cons p ps ih =>
    intro acc rest h
    simp only [List.all_cons, Bool.and_eq_true] at h
    cases p with
    | searchEntry dn attrs =>
      simp only [List.map_cons, List.cons_append, searchLoop, List.append_eq]
      rw [ih _ rest h.2]
      simp [entryOfPDU, firstUrlOfPDU]
    | searchDone code ctrls =>
      simp [nonTerminalPDU] at h
    | searchReference url moreUrls =>
      simp only [List.map_cons, List.cons_append, searchLoop, List.append_eq]
      rw [ih _ rest h.2]
      simp [entryOfPDU, firstUrlOfPDU]
    | otherApp t =>
      simp only [List.map_cons, List.cons_append, searchLoop, List.append_eq]
      rw [ih _ rest h.2]
      simp [entryOfPDU, firstUrlOfPDU]

/-- Helper: the control-decoding loop of the SearchResultDone branch
never touches the accumulated entries or referrals. -/
theorem appendControlChildren_keeps (cs : List CtrlPacket) :
    ∀ acc : SearchResult,
      (appendControlChildren cs acc).1.Entries = acc.Entries
      ∧ (appendControlChildren cs acc).1.Referrals = acc.Referrals := by
  induction cs with
  | nil =>
    intro acc
    exact ⟨rfl, rfl⟩
  | cons c rest ih =>
    intro acc
    cases c with
    | good c0 => simpa [appendControlChildren] using ih _
    | bad m => simp [appendControlChildren]

/-- Helper: whatever the SearchResultDone carries (success, an error
result code, controls that decode, or controls that fail to decode),
the result returned by the final step keeps the accumulated entries and
referrals. -/
theorem searchLoop_done_keeps (acc : SearchResult) (code : Nat)
    (ctrls : Option (List CtrlPacket)) :
    (searchLoop acc [PDUEvent.packet (PDU.searchDone code ctrls)]).1.Entries = acc.Entries
    ∧ (searchLoop acc [PDUEvent.packet (PDU.searchDone code ctrls)]).1.Referrals = acc.Referrals := by
  cases he : GetLDAPError code with
  | some e => simp [searchLoop, he]
  | none =>
    cases ctrls with
    | none => simp [searchLoop, he]
    | some cs => simpa [searchLoop, he] using appendControlChildren_keeps cs acc

/-- C6: for a search whose inbound PDUs are a run of non-terminal PDUs
closed by a SearchResultDone, the buffered `Search` returns exactly the
entries decoded from the SearchResultEntry PDUs, in arrival order — no
duplicates, no drops — whatever the Done's result code and controls. -/
theorem search_entries_exact (pre : List PDU) (code : Nat)
    (ctrls : Option (List CtrlPacket)) (h : pre.all nonTerminalPDU) :
    (Search (pre.map PDUEvent.packet
               ++ [PDUEvent.packet (PDU.searchDone code ctrls)])).1.Entries
      = pre.filterMap entryOfPDU := by
  unfold Search
  rw [searchLoop_accumulates pre emptySearchResult _ h]
  simpa [emptySearchResult] using
    (searchLoop_done_keeps ⟨pre.filterMap entryOfPDU, pre.filterMap firstUrlOfPDU, []⟩
      code ctrls).1

/-- Witness for C6: the spec's two-entry scenario — two
SearchResultEntry PDUs then a clean Done — yields exactly those two
entries in order. -/
theorem search_entries_exact_witness :
    (Search ([PDU.searchEntry "cn=a,dc=x" [⟨"cn", ["a"]⟩],
              PDU.searchEntry "cn=b,dc=x" [⟨"cn", ["b"]⟩]].map PDUEvent.packet
               ++ [PDUEvent.packet (PDU.searchDone 0 none)])).1.Entries
      = [⟨"cn=a,dc=x", [⟨"cn", ["a"], ["a"]⟩]⟩, ⟨"cn=b,dc=x", [⟨"cn", ["b"], ["b"]⟩]⟩] :=
  (search_entries_exact [PDU.searchEntry "cn=a,dc=x" [⟨"cn", ["a"]⟩],
      PDU.searchEntry "cn=b,dc=x" [⟨"cn", ["b"]⟩]] 0 none (by decide)).trans (by decide)


/-- Helper: running the streaming receive loop over a prefix of
non-terminal PDUs sends exactly the per-PDU records, in arrival order,
before continuing with the rest of the stream. -/
theorem channelLoop_accumulates (pre : List PDU) :
    ∀ (sent : List SearchResult) (rest : List PDUEvent), pre.all nonTerminalPDU →
      channelLoop sent (pre.map PDUEvent.packet ++ rest)
        = channelLoop (sent ++ pre.filterMap recordOfPDU) rest := by
  induction pre with
  | nil =>
    intro sent rest _
    simp
  | cons p ps ih =>
    intro sent rest h
    simp only [List.all_cons, Bool.and_eq_true] at h
    cases p with
    | searchEntry dn attrs =>
      simp only [List.map_cons, List.cons_append, channelLoop, List.append_eq]
      rw [ih _ rest h.2]
      simp [recordOfPDU]
    | searchDone code ctrls =>
      simp [nonTerminalPDU] at h
    | searchReference url moreUrls =>
      simp only [List.map_cons, List.cons_append, channelLoop, List.append_eq]
      rw [ih _ rest h.2]
      simp [recordOfPDU]
    | otherApp t =>
      simp only [List.map_cons, List.cons_append, channelLoop, List.append_eq]
      rw [ih _ rest h.2]
      simp [recordOfPDU]

/-- Helper: flattening the referral lists of the per-PDU records gives
exactly the first URL of each reference PDU. -/
theorem records_referrals_flatten (pre : List PDU) :
    ((pre.filterMap recordOfPDU).map SearchResult.Referrals).flatten
      = pre.filterMap firstUrlOfPDU := by
  induction pre with
  | nil => rfl
  | cons p ps ih =>
    cases p with
    | searchEntry dn attrs => simpa [recordOfPDU, firstUrlOfPDU] using ih
    | searchDone code ctrls => simpa [recordOfPDU, firstUrlOfPDU] using ih
    | searchReference url moreUrls => simpa [recordOfPDU, firstUrlOfPDU] using ih
    | otherApp t => simpa [recordOfPDU, firstUrlOfPDU] using ih

/-- C2 counterexample: a single SearchResultReference PDU carrying the
two URLs "ldap://u1" and "ldap://u2" yields only one referral — the
first URL — both in the buffered `Search` result and on the
`SearchWithChannel` channel, not the two referrals the claim
promises. -/
theorem reference_extra_urls_dropped :
    (Search [PDUEvent.packet (PDU.searchReference "ldap://u1" ["ldap://u2"]),
             PDUEvent.packet (PDU.searchDone 0 none)]).1.Referrals = ["ldap://u1"]
    ∧ (SearchWithChannel true true true
         [PDUEvent.packet (PDU.searchReference "ldap://u1" ["ldap://u2"]),
          PDUEvent.packet (PDU.searchDone 0 none)]).sent
        = [⟨[], ["ldap://u1"], []⟩]
    ∧ (["ldap://u1"] : List String) ≠ ["ldap://u1", "ldap://u2"] := by
  refine ⟨rfl, rfl, by decide⟩

/-- C2 (amended): each SearchResultReference PDU contributes exactly its
first referral URL — further URLs in the same PDU are dropped — both in
the buffered `Search` result and in the records `SearchWithChannel`
sends. -/
theorem referrals_first_url_only (pre : List PDU) (code : Nat)
    (ctrls : Option (List CtrlPacket)) (h : pre.all nonTerminalPDU) :
    (Search (pre.map PDUEvent.packet
               ++ [PDUEvent.packet (PDU.searchDone code ctrls)])).1.Referrals
        = pre.filterMap firstUrlOfPDU
    ∧ ((SearchWithChannel true true true
          (pre.map PDUEvent.packet
            ++ [PDUEvent.packet (PDU.searchDone code none)])).sent.map
            SearchResult.Referrals).flatten
        = pre.filterMap firstUrlOfPDU := by
  constructor
  · unfold Search
    rw [searchLoop_accumulates pre emptySearchResult _ h]
    simpa [emptySearchResult] using
      (searchLoop_done_keeps ⟨pre.filterMap entryOfPDU, pre.filterMap firstUrlOfPDU, []⟩
        code ctrls).2
  · unfold SearchWithChannel
    simp only [Bool.not_true, Bool.false_eq_true, if_false]
    rw [channelLoop_accumulates pre [] _ h]
    cases he : GetLDAPError code with
    | some e => simp [channelLoop, he, records_referrals_flatten]
    | none => simp [channelLoop, he, records_referrals_flatten]

/-- Witness for the amended C2: a reference PDU between two entries
delivers its first URL in both delivery shapes. -/
theorem referrals_first_url_only_witness :
    (Search ([PDU.searchEntry "cn=a,dc=x" [],
              PDU.searchReference "ldap://u1" ["ldap://u2"]].map PDUEvent.packet
               ++ [PDUEvent.packet (PDU.searchDone 0 none)])).1.Referrals = ["ldap://u1"]
    ∧ ((SearchWithChannel true true true
          ([PDU.searchEntry "cn=a,dc=x" [],
            PDU.searchReference "ldap://u1" ["ldap://u2"]].map PDUEvent.packet
            ++ [PDUEvent.packet (PDU.searchDone 0 none)])).sent.map
            SearchResult.Referrals).flatten = ["ldap://u1"] := by
  have h := referrals_first_url_only
    [PDU.searchEntry "cn=a,dc=x" [], PDU.searchReference "ldap://u1" ["ldap://u2"]]
    0 none (by decide)
  exact ⟨h.1.trans (by decide), h.2.trans (by decide)⟩


/-- C5 counterexample: on the second page of a paged search the inner
`Search` decodes the entry "cn=b,dc=x" and then hits a read error, so it
returns that partial entry alongside the error; `SearchWithPaging`
returns the error but drops the failing page's partial result — the
entry accumulated before the failure is not returned to the caller. -/
theorem failing_page_partials_discarded :
    Search [PDUEvent.packet (PDU.searchEntry "cn=b,dc=x" []), PDUEvent.readErr "conn reset"]
      = (⟨[⟨"cn=b,dc=x", []⟩], [], []⟩, some (.readError "conn reset"))
    ∧ (SearchWithPaging [] 2
        [⟨some ⟨[⟨"cn=a,dc=x", []⟩], [], [Control.paging 0 "k1"]⟩, none⟩,
         ⟨some ⟨[⟨"cn=b,dc=x", []⟩], [], []⟩, some (.readError "conn reset")⟩]).result.Entries
      = [⟨"cn=a,dc=x", []⟩]
    ∧ (SearchWithPaging [] 2
        [⟨some ⟨[⟨"cn=a,dc=x", []⟩], [], [Control.paging 0 "k1"]⟩, none⟩,
         ⟨some ⟨[⟨"cn=b,dc=x", []⟩], [], []⟩, some (.readError "conn reset")⟩]).error
      = some (.readError "conn reset")
    ∧ (⟨"cn=b,dc=x", []⟩ : Entry) ∉
        (SearchWithPaging [] 2
          [⟨some ⟨[⟨"cn=a,dc=x", []⟩], [], [Control.paging 0 "k1"]⟩, none⟩,
           ⟨some ⟨[⟨"cn=b,dc=x", []⟩], [], []⟩, some (.readError "conn reset")⟩]).result.Entries := by
  exact ⟨rfl, rfl, rfl, by decide⟩

/-- Helper: the control-decoding loop decodes the leading good children
into the accumulator and stops at the first malformed child, returning
the controls decoded so far alongside the decode error. -/
theorem appendControlChildren_stops_at_bad (goods : List Control) :
    ∀ (m : String) (rest : List CtrlPacket) (acc : SearchResult),
      appendControlChildren (goods.map CtrlPacket.good ++ CtrlPacket.bad m :: rest) acc
        = (⟨acc.Entries, acc.Referrals, acc.Controls ++ goods⟩, some (.controlDecode m)) := by
  induction goods with
  | nil =>
    intro m rest acc
    simp [appendControlChildren]
  | cons g gs ih =>
    intro m rest acc
    simp only [List.map_cons, List.cons_append, appendControlChildren, List.append_eq]
    rw [ih m rest ⟨acc.Entries, acc.Referrals, acc.Controls ++ [g]⟩]
    simp

/-- C5 (amended): the buffered `Search` returns everything it
accumulated before the failure alongside the error — on a mid-stream
read error, on an error SearchResultDone, and on a clean Done whose
control child fails to decode (where the controls decoded before the
malformed child are returned too) — and `SearchWithPaging` returns the
aggregate of the completed prior pages alongside the error of the
failing page; the failing page's own partial result, however, is
discarded (the conclusion does not depend on `fail.result`). -/
theorem search_partials_alongside_error :
    (∀ (pre : List PDU) (m : String), pre.all nonTerminalPDU →
       Search (pre.map PDUEvent.packet ++ [PDUEvent.readErr m])
         = (⟨pre.filterMap entryOfPDU, pre.filterMap firstUrlOfPDU, []⟩, some (.readError m)))
    ∧ (∀ (pre : List PDU) (code : Nat) (ctrls : Option (List CtrlPacket)) (e : LdapErr),
         pre.all nonTerminalPDU → GetLDAPError code = some e →
         Search (pre.map PDUEvent.packet ++ [PDUEvent.packet (PDU.searchDone code ctrls)])
           = (⟨pre.filterMap entryOfPDU, pre.filterMap firstUrlOfPDU, []⟩, some e))
    ∧ (∀ (pre : List PDU) (code : Nat) (goods : List Control) (m : String)
         (rest : List CtrlPacket),
         pre.all nonTerminalPDU → GetLDAPError code = none →
         Search (pre.map PDUEvent.packet
             ++ [PDUEvent.packet (PDU.searchDone code
                   (some (goods.map CtrlPacket.good ++ CtrlPacket.bad m :: rest)))])
           = (⟨pre.filterMap entryOfPDU, pre.filterMap firstUrlOfPDU, goods⟩,
              some (.controlDecode m)))
    ∧ (∀ (pagingSize s1 : Nat) (r1 : SearchResult) (ck : String)
         (fail : PageResp) (e : LdapErr) (rest : List PageResp),
         FindControl r1.Controls ControlTypePaging = some (Control.paging s1 ck) →
         ck ≠ "" → fail.err = some e →
         (SearchWithPaging [] pagingSize (⟨some r1, none⟩ :: fail :: rest)).result
             = ⟨r1.Entries, r1.Referrals, r1.Controls⟩
           ∧ (SearchWithPaging [] pagingSize (⟨some r1, none⟩ :: fail :: rest)).error = some e) := by
  refine ⟨?_, ?_, ?_, ?_⟩
  · intro pre m h
    unfold Search
    rw [searchLoop_accumulates pre emptySearchResult _ h]
    simp [searchLoop, emptySearchResult]
  · intro pre code ctrls e h hcode
    unfold Search
    rw [searchLoop_accumulates pre emptySearchResult _ h]
    simp [searchLoop, emptySearchResult, hcode]
  · intro pre code goods m rest h hcode
    unfold Search
    rw [searchLoop_accumulates pre emptySearchResult _ h]
    simp only [searchLoop, hcode]
    rw [appendControlChildren_stops_at_bad goods m rest]
    simp [emptySearchResult]
  · intro pagingSize s1 r1 ck fail e rest hfind hck hfail
    have hsetup : FindControl ([] : List Control) ControlTypePaging = none := rfl
    simp only [SearchWithPaging, hsetup]
    simp only [pagingLoop, hfind, hfail, emptySearchResult, List.nil_append, hck,
      if_neg, ite_false]
    exact ⟨trivial, trivial⟩

/-- Witness for the amended C5 at concrete inputs: one entry survives a
read error, one entry survives an error Done (resultCode 1), an entry
and the decoded paging control survive a malformed second control child
on a clean Done, and a completed first page survives a failing second
page. -/
theorem search_partials_alongside_error_witness :
    Search ([PDU.searchEntry "cn=a,dc=x" []].map PDUEvent.packet ++ [PDUEvent.readErr "conn reset"])
        = (⟨[⟨"cn=a,dc=x", []⟩], [], []⟩, some (.readError "conn reset"))
    ∧ Search ([PDU.searchEntry "cn=a,dc=x" []].map PDUEvent.packet
          ++ [PDUEvent.packet (PDU.searchDone 1 none)])
        = (⟨[⟨"cn=a,dc=x", []⟩], [], []⟩, some (.resultError 1))
    ∧ Search ([PDU.searchEntry "cn=a,dc=x" []].map PDUEvent.packet
          ++ [PDUEvent.packet (PDU.searchDone 0
                (some [CtrlPacket.good (Control.paging 0 "k"), CtrlPacket.bad "m"]))])
        = (⟨[⟨"cn=a,dc=x", []⟩], [], [Control.paging 0 "k"]⟩, some (.controlDecode "m"))
    ∧ (SearchWithPaging [] 2
          [⟨some ⟨[⟨"cn=a,dc=x", []⟩], [], [Control.paging 0 "k1"]⟩, none⟩,
           ⟨none, some (.network "send failed")⟩]).result
        = ⟨[⟨"cn=a,dc=x", []⟩], [], [Control.paging 0 "k1"]⟩ := by
  refine ⟨?_, ?_, ?_, ?_⟩
  · exact (search_partials_alongside_error.1 [PDU.searchEntry "cn=a,dc=x" []]
      "conn reset" (by decide)).trans (by decide)
  · exact (search_partials_alongside_error.2.1 [PDU.searchEntry "cn=a,dc=x" []]
      1 none (.resultError 1) (by decide) (by decide)).trans (by decide)
  · exact (search_partials_alongside_error.2.2.1 [PDU.searchEntry "cn=a,dc=x" []]
      0 [Control.paging 0 "k"] "m" [] (by decide) (by decide)).trans (by decide)
  · exact ((search_partials_alongside_error.2.2.2 2 0
      ⟨[⟨"cn=a,dc=x", []⟩], [], [Control.paging 0 "k1"]⟩ "k1"
      ⟨none, some (.network "send failed")⟩ (.network "send failed") []
      (by decide) (by decide) (by decide)).1).trans (by decide)


/-- Helper: the number of inner searches the paging loop issues is one
more than the number of leading pages that continue paging (error-free,
non-nil result, real paging control, nonempty cookie). -/
theorem pagingLoop_issued_count (pages : List PageResp) :
    ∀ controls acc issued,
      (pagingLoop controls acc issued pages).issuedRequests.length
        = issued.length + (pages.takeWhile pageContinues).length + 1 := by
  induction pages with
  | nil =>
    intro controls acc issued
    simp [pagingLoop]
  | cons page rest ih =>
    intro controls acc issued
    cases herr : page.err with
    | some e =>
      simp [pagingLoop, herr, List.takeWhile_cons, pageContinues]
    | none =>
      cases hres : page.result with
      | none =>
        simp [pagingLoop, herr, hres, List.takeWhile_cons, pageContinues]
      | some r =>
        cases hfind : FindControl r.Controls ControlTypePaging with
        | none =>
          simp [pagingLoop, herr, hres, hfind, abandonPhase,
            List.takeWhile_cons, pageContinues]
        | some c =>
          cases c with
          | other oid =>
            simp [pagingLoop, herr, hres, hfind, List.takeWhile_cons, pageContinues]
          | paging s cookie =>
            by_cases hck : cookie = ""
            · simp [pagingLoop, herr, hres, hfind, hck, abandonPhase,
                List.takeWhile_cons, pageContinues]
            · simp only [pagingLoop, herr, hres, hfind, hck, ite_false, if_neg,
                List.takeWhile_cons, pageContinues, bne_iff_ne, ne_eq,
                not_false_eq_true, if_true, List.length_cons]
              rw [ih]
              simp
              omega

/-- Helper: the request recorded for the first inner search of the
paging loop is the Controls slice the loop was entered with. -/
theorem pagingLoop_issued_head (pages : List PageResp) :
    ∀ controls acc issued, ∃ tail,
      (pagingLoop controls acc issued pages).issuedRequests
        = issued ++ [controls] ++ tail := by
  induction pages with
  | nil =>
    intro controls acc issued
    exact ⟨[], by simp [pagingLoop]⟩
  | cons page rest ih =>
    intro controls acc issued
    cases herr : page.err with
    | some e => exact ⟨[], by simp [pagingLoop, herr]⟩
    | none =>
      cases hres : page.result with
      | none => exact ⟨[], by simp [pagingLoop, herr, hres]⟩
      | some r =>
        cases hfind : FindControl r.Controls ControlTypePaging with
        | none => exact ⟨[], by simp [pagingLoop, herr, hres, hfind, abandonPhase]⟩
        | some c =>
          cases c with
          | other oid => exact ⟨[], by simp [pagingLoop, herr, hres, hfind]⟩
          | paging s cookie =>
            by_cases hck : cookie = ""
            · exact ⟨[], by simp [pagingLoop, herr, hres, hfind, hck, abandonPhase]⟩
            · obtain ⟨tail, htail⟩ :=
                ih (updateFirstPagingControl (setPagingCookie cookie) controls)
                  ⟨acc.Entries ++ r.Entries, acc.Referrals ++ r.Referrals,
                   acc.Controls ++ r.Controls⟩
                  (issued ++ [controls])
              refine ⟨updateFirstPagingControl (setPagingCookie cookie) controls :: tail, ?_⟩
              simp only [pagingLoop, herr, hres, hfind, hck, ite_false, if_neg]
              rw [htail]
              simp

/-- C3 counterexample: the inner `Search` can return a result whose
paging control carries the nonempty cookie "k" together with an error
(here: the Done's second control fails to decode), and on such a page
`SearchWithPaging` stops after a single request — the run terminates
although the server never returned an empty cookie (nor a Done without
a paging control), refuting the claimed "terminates only if". -/
theorem paging_stops_without_empty_cookie :
    Search [PDUEvent.packet (PDU.searchDone 0
        (some [CtrlPacket.good (Control.paging 0 "k"), CtrlPacket.bad "m"]))]
      = (⟨[], [], [Control.paging 0 "k"]⟩, some (.controlDecode "m"))
    ∧ (SearchWithPaging [] 2
        [⟨some ⟨[], [], [Control.paging 0 "k"]⟩, some (.controlDecode "m")⟩]).error
      = some (.controlDecode "m")
    ∧ (SearchWithPaging [] 2
        [⟨some ⟨[], [], [Control.paging 0 "k"]⟩, some (.controlDecode "m")⟩]).issuedRequests.length
      = 1
    ∧ FindControl [Control.paging 0 "k"] ControlTypePaging = some (Control.paging 0 "k")
    ∧ ("k" : String) ≠ "" := by
  exact ⟨rfl, rfl, rfl, rfl, by decide⟩

/-- C3 (amended): when the request's paging control passes the setup
check, the helper issues exactly one request per leading page that
continues paging (error-free, non-nil result, paging control with
nonempty cookie) plus the one request on which it stops; in particular
it never issues a next-page request after an empty cookie, and in an
error-free run it stops exactly at the first empty or missing cookie —
but an error page also stops the loop. -/
theorem searchWithPaging_next_page_iff (controls : List Control) (pagingSize : Nat)
    (pages : List PageResp)
    (hsetup : FindControl controls ControlTypePaging = none
      ∨ ∃ ck, FindControl controls ControlTypePaging = some (Control.paging pagingSize ck)) :
    (SearchWithPaging controls pagingSize pages).issuedRequests.length
      = (pages.takeWhile pageContinues).length + 1 := by
  rcases hsetup with hnone | ⟨ck, hfound⟩
  · simp only [SearchWithPaging, hnone]
    simpa using pagingLoop_issued_count pages _ _ []
  · simp only [SearchWithPaging, hfound, ne_eq, not_true_eq_false, ite_false, if_neg]
    simpa using pagingLoop_issued_count pages _ _ []

/-- Witness for the amended C3: a two-page run (cookie "k1", then empty
cookie) issues exactly two requests. -/
theorem searchWithPaging_next_page_iff_witness :
    (SearchWithPaging [] 2
        [⟨some ⟨[], [], [Control.paging 0 "k1"]⟩, none⟩,
         ⟨some ⟨[], [], [Control.paging 0 ""]⟩, none⟩]).issuedRequests.length
      = ([⟨some ⟨[], [], [Control.paging 0 "k1"]⟩, none⟩,
          (⟨some ⟨[], [], [Control.paging 0 ""]⟩, none⟩ : PageResp)].takeWhile
            pageContinues).length + 1 := by
  exact searchWithPaging_next_page_iff [] 2
    [⟨some ⟨[], [], [Control.paging 0 "k1"]⟩, none⟩,
     ⟨some ⟨[], [], [Control.paging 0 ""]⟩, none⟩] (Or.inl rfl)

/-- C4 (spec-modelled via `FindControl`): `SearchWithPaging` adds a
paging control with the requested size when none is present; fails
without issuing any query when the control carrying the paging OID is
not a `*ControlPaging` or when its size differs from the argument; and
issues the first query with the request unchanged when the sizes
match. -/
theorem searchWithPaging_setup (controls : List Control) (pagingSize : Nat)
    (pages : List PageResp) :
    (FindControl controls ControlTypePaging = none →
       (SearchWithPaging controls pagingSize pages).issuedRequests.head?
         = some (controls ++ [Control.paging pagingSize ""]))
    ∧ (∀ oid, FindControl controls ControlTypePaging = some (Control.other oid) →
         SearchWithPaging controls pagingSize pages
           = ⟨emptySearchResult, some .notPagingControl, [], false, false⟩)
    ∧ (∀ s ck, FindControl controls ControlTypePaging = some (Control.paging s ck) →
         s ≠ pagingSize →
         SearchWithPaging controls pagingSize pages
           = ⟨emptySearchResult, some (.pagingSizeMismatch s pagingSize), [], false, false⟩)
    ∧ (∀ ck, FindControl controls ControlTypePaging = some (Control.paging pagingSize ck) →
         (SearchWithPaging controls pagingSize pages).issuedRequests.head? = some controls) := by
  refine ⟨?_, ?_, ?_, ?_⟩
  · intro hnone
    obtain ⟨tail, htail⟩ :=
      pagingLoop_issued_head pages (controls ++ [NewControlPaging pagingSize])
        emptySearchResult []
    simp only [SearchWithPaging, hnone]
    rw [htail]
    simp [NewControlPaging]
  · intro oid hfound
    simp [SearchWithPaging, hfound]
  · intro s ck hfound hs
    simp [SearchWithPaging, hfound, hs]
  · intro ck hfound
    obtain ⟨tail, htail⟩ := pagingLoop_issued_head pages controls emptySearchResult []
    simp only [SearchWithPaging, hfound, ne_eq, not_true_eq_false, ite_false, if_neg]
    rw [htail]
    simp

/-- Witness for C4: all four setup cases at concrete requests — control
absent, wrong control type, mismatched size 3 against 2, and matching
size 2. -/
theorem searchWithPaging_setup_witness :
    (SearchWithPaging [] 2 []).issuedRequests.head? = some [Control.paging 2 ""]
    ∧ SearchWithPaging [Control.other ControlTypePaging] 2 []
        = ⟨emptySearchResult, some .notPagingControl, [], false, false⟩
    ∧ SearchWithPaging [Control.paging 3 "c"] 2 []
        = ⟨emptySearchResult, some (.pagingSizeMismatch 3 2), [], false, false⟩
    ∧ (SearchWithPaging [Control.paging 2 "c0"] 2 []).issuedRequests.head?
        = some [Control.paging 2 "c0"] := by
  refine ⟨?_, ?_, ?_, ?_⟩
  · exact ((searchWithPaging_setup [] 2 []).1 rfl).trans (by decide)
  · exact (searchWithPaging_setup [Control.other ControlTypePaging] 2 []).2.1
      ControlTypePaging (by decide)
  · exact (searchWithPaging_setup [Control.paging 3 "c"] 2 []).2.2.1 3 "c"
      (by decide) (by decide)
  · exact (searchWithPaging_setup [Control.paging 2 "c0"] 2 []).2.2.2 "c0" (by decide)


/-- Helper: a clean SearchResultDone without controls ends the streaming
loop, sending nothing further and returning `GetLDAPError` of its
code. -/
theorem channelLoop_done_none (sent : List SearchResult) (code : Nat) :
    channelLoop sent [PDUEvent.packet (PDU.searchDone code none)]
      = (sent, GetLDAPError code) := by
  cases he : GetLDAPError code with
  | some e => simp [channelLoop, he]
  | none => simp [channelLoop, he]

/-- C7: with a non-nil channel, `SearchWithChannel` closes the channel
by the time it returns on every path (the `defer close(ch)`), and each
entry and each reference PDU's referral is pushed as its PDU is
processed — on a clean Done and on a mid-stream read error alike, the
records sent are exactly the per-PDU records of the processed prefix,
so the consumer sees the end of the stream by closure, not by a
sentinel. -/
theorem searchWithChannel_streams_and_closes :
    (∀ (compileOk sendOk : Bool) (events : List PDUEvent),
       (SearchWithChannel true compileOk sendOk events).closed = true)
    ∧ (∀ (pre : List PDU) (code : Nat), pre.all nonTerminalPDU →
         (SearchWithChannel true true true
            (pre.map PDUEvent.packet ++ [PDUEvent.packet (PDU.searchDone code none)])).sent
           = pre.filterMap recordOfPDU)
    ∧ (∀ (pre : List PDU) (m : String), pre.all nonTerminalPDU →
         (SearchWithChannel true true true
              (pre.map PDUEvent.packet ++ [PDUEvent.readErr m])).sent
             = pre.filterMap recordOfPDU
           ∧ (SearchWithChannel true true true
               (pre.map PDUEvent.packet ++ [PDUEvent.readErr m])).error
             = some (.readError m)) := by
  refine ⟨?_, ?_, ?_⟩
  · intro compileOk sendOk events
    cases compileOk <;> cases sendOk <;>
      · rcases h : channelLoop [] events with ⟨sent, e⟩
        simp [SearchWithChannel, h]
  · intro pre code h
    have hcl : channelLoop [] (pre.map PDUEvent.packet
        ++ [PDUEvent.packet (PDU.searchDone code none)])
        = (pre.filterMap recordOfPDU, GetLDAPError code) := by
      rw [channelLoop_accumulates pre [] _ h]
      simpa using channelLoop_done_none (pre.filterMap recordOfPDU) code
    simp [SearchWithChannel, hcl]
  · intro pre m h
    have hcl : channelLoop [] (pre.map PDUEvent.packet ++ [PDUEvent.readErr m])
        = (pre.filterMap recordOfPDU, some (.readError m)) := by
      rw [channelLoop_accumulates pre [] _ h]
      simp [channelLoop]
    constructor <;> simp [SearchWithChannel, hcl]

/-- Witness for C7: an entry PDU and a reference PDU followed by a clean
Done put exactly the entry record then the referral record on the
channel; the same prefix cut off by a read error still delivers both
records, and the channel is closed in both runs. -/
theorem searchWithChannel_streams_and_closes_witness :
    (SearchWithChannel true true true
        ([PDU.searchEntry "cn=a,dc=x" [], PDU.searchReference "ldap://u1" []].map
            PDUEvent.packet ++ [PDUEvent.packet (PDU.searchDone 0 none)])).sent
      = [⟨[⟨"cn=a,dc=x", []⟩], [], []⟩, ⟨[], ["ldap://u1"], []⟩]
    ∧ (SearchWithChannel true true true
        ([PDU.searchEntry "cn=a,dc=x" [], PDU.searchReference "ldap://u1" []].map
            PDUEvent.packet ++ [PDUEvent.packet (PDU.searchDone 0 none)])).closed = true
    ∧ (SearchWithChannel true true true
        ([PDU.searchEntry "cn=a,dc=x" [], PDU.searchReference "ldap://u1" []].map
            PDUEvent.packet ++ [PDUEvent.readErr "conn reset"])).sent
      = [⟨[⟨"cn=a,dc=x", []⟩], [], []⟩, ⟨[], ["ldap://u1"], []⟩] := by
  refine ⟨?_, ?_, ?_⟩
  · exact (searchWithChannel_streams_and_closes.2.1
      [PDU.searchEntry "cn=a,dc=x" [], PDU.searchReference "ldap://u1" []] 0
      (by decide)).trans (by decide)
  · exact searchWithChannel_streams_and_closes.1 true true _
  · exact ((searchWithChannel_streams_and_closes.2.2
      [PDU.searchEntry "cn=a,dc=x" [], PDU.searchReference "ldap://u1" []] "conn reset"
      (by decide)).1).trans (by decide)

end Ldap
